import Mathlib

/-!
Verification of the envelope layer of the CosoriKettleBLE ESPHome component
(components/cosori_kettle_ble/envelope.h / envelope.cpp).

Bytes are modelled as natural numbers; every value the C code stores in a
uint8_t slot is produced here with an explicit `% 256`, and the uint16_t
conversion at the `calculate_checksum` call boundary is an explicit
`% 65536`.  Byte buffers are `List Nat`.  The C `payload` pointer of
`Envelope::build` is modelled as an `Option (List Nat)` (the readable bytes
behind the pointer, `none` for a null pointer) together with the separate
`payload_len` argument, exactly as in the C signature.
-/

namespace cosori_kettle_ble

/-- Frame magic byte, `static constexpr uint8_t FRAME_MAGIC = 0xA5` in envelope.cpp. -/
def FRAME_MAGIC : Nat := 0xA5

/-- BLE characteristic write limit, `static constexpr size_t BLE_CHUNK_SIZE = 20` in envelope.h. -/
def BLE_CHUNK_SIZE : Nat := 20

namespace Envelope

/-- Embedding of `Envelope::calculate_checksum(uint8_t frame_type, uint8_t seq,
uint16_t payload_len)`: `(FRAME_MAGIC + frame_type + seq + (payload_len & 0xFF)
+ ((payload_len >> 8) & 0xFF)) & 0xFF`.  `payload_len` here stands for the
uint16_t argument value. -/
def calculate_checksum (frame_type seq payload_len : Nat) : Nat :=
  (FRAME_MAGIC + frame_type + seq + payload_len % 256 + (payload_len / 256) % 256) % 256

/-- Embedding of `Envelope::build(uint8_t frame_type, uint8_t seq,
const uint8_t *payload, size_t payload_len)`.  The six header bytes are pushed
in order (magic, type, seq, `payload_len & 0xFF`, `(payload_len >> 8) & 0xFF`,
checksum); the checksum call converts `payload_len` to uint16_t, hence the
`% 65536`.  The payload bytes are appended only when the pointer is non-null
and `payload_len > 0`; the C `insert` copies exactly `payload_len` bytes from
the buffer, hence `List.take payload_len`. -/
def build (frame_type seq : Nat) (payload : Option (List Nat)) (payload_len : Nat) :
    List Nat :=
  let header : List Nat :=
    [FRAME_MAGIC, frame_type, seq, payload_len % 256, (payload_len / 256) % 256,
     calculate_checksum frame_type seq (payload_len % 65536)]
  match payload with
  | some p => if 0 < payload_len then header ++ p.take payload_len else header
  | none => header

/-- The ordinary, well-defined call pattern of `build`: a present payload buffer
whose length is passed as `payload_len`. -/
def buildV (frame_type seq : Nat) (p : List Nat) : List Nat :=
  build frame_type seq (some p) p.length

/-- Loop body of `Envelope::chunk`: each iteration takes the next
`min(c, remaining)` bytes and recurses on the rest.  The fuel argument is an
upper bound on the number of iterations (the C `for` loop advances `i` by the
chunk size each round, so for a positive chunk size the iteration count is at
most the packet length); fuel never runs out in the cases the code reaches. -/
def chunkGo : Nat → Nat → List Nat → List (List Nat)
  | _, _, [] => []
  | 0, _, _ :: _ => []
  | fuel + 1, c, x :: rest => (x :: rest).take c :: chunkGo fuel c ((x :: rest).drop c)

/-- `Envelope::chunk` with the chunk-size constant left symbolic (the C loop
refers to it only through the name `BLE_CHUNK_SIZE`). -/
def chunkWith (c : Nat) (packet : List Nat) : List (List Nat) :=
  chunkGo packet.length c packet

/-- Embedding of `Envelope::chunk(const std::vector<uint8_t> &packet)`:
empty packets yield no chunks, otherwise the packet is split into
`BLE_CHUNK_SIZE`-byte slices with a shorter final slice. -/
def chunk (packet : List Nat) : List (List Nat) :=
  chunkWith BLE_CHUNK_SIZE packet

end Envelope

/-- Spec-side definition, from the words of spec section 4.1: checksumics
`checksum_v0(bytes) -> byte` is the additive sum of all header/payload bytes
mod 256.  Declared only to compare against `Envelope.calculate_checksum`. -/
def checksum_v0_spec (bytes : List Nat) : Nat :=
  bytes.sum % 256

/-- Modelled from the spec: `checksum_v1` lives in protocol.cpp, which is not
among the provided sources.  Spec section 4.1 describes it as iterative
subtraction from a protocol-defined seed, byte by byte, mod 256; the seed 0xFF
is the unique seed that reproduces the documented sample frame
`A5 22 1C 05 00 CD` with payload `01 F3 A3 00 B3` and the other captured
frames in the repository notes. -/
def checksum_v1 (bytes : List Nat) : Nat :=
  bytes.foldl (fun acc b => (acc + 256 - b % 256) % 256) 0xFF

/-- Helper: little-endian decode of the 16-bit length field stored at header
bytes 3 (low) and 4 (high) of a frame, per the wire format. -/
def len_field (frame : List Nat) : Nat :=
  frame.getD 3 0 + 256 * frame.getD 4 0

/-- Helper: `buildV` always produces the six header bytes followed by the
payload. -/
lemma buildV_eq (t s : Nat) (p : List Nat) :
    Envelope.buildV t s p =
      [FRAME_MAGIC, t, s, p.length % 256, (p.length / 256) % 256,
       Envelope.calculate_checksum t s (p.length % 65536)] ++ p := by
  by_cases h : 0 < p.length
  · simp [Envelope.buildV, Envelope.build, h, List.take_length]
  · have hp : p = [] := by
      cases p with
      | nil => rfl
      | cons a l => simp at h
    subst hp
    simp [Envelope.buildV, Envelope.build]

/-- C1 counterexample: the checksum algorithm implemented in envelope.cpp does
not produce 0xCD for the documented sample frame header (type 0x22, seq 0x1C,
length 5). -/
theorem sample_frame_checksum_not_CD :
    Envelope.calculate_checksum 0x22 0x1C 5 ≠ 0xCD := by decide

/-- C1 (amended): for the documented sample frame (type 0x22, seq 0x1C,
length 5), `calculate_checksum` — the additive header checksum of
envelope.cpp — produces 0xE8, not 0xCD; the documented byte 0xCD is produced
by the V1 iterative-subtraction checksum over the header-sans-checksum and
payload bytes of that frame. -/
theorem sample_frame_checksum_values :
    Envelope.calculate_checksum 0x22 0x1C 5 = 0xE8 ∧
      checksum_v1 [0xA5, 0x22, 0x1C, 0x05, 0x00, 0x01, 0xF3, 0xA3, 0x00, 0xB3] = 0xCD := by
  decide

/-- C2 counterexample: `calculate_checksum` disagrees with the spec's
"additive sum of all header/payload bytes mod 256" on the frame with type 0,
seq 0 and payload [1], and two frames that differ only in payload content
carry the same checksum byte. -/
theorem checksum_ignores_payload_cex :
    Envelope.calculate_checksum 0 0 1 ≠ checksum_v0_spec [0xA5, 0, 0, 1, 0, 1] ∧
      (Envelope.buildV 0 0 [1]).getD 5 0 = (Envelope.buildV 0 0 [2]).getD 5 0 := by
  decide

/-- C2 (amended): the legacy checksum implemented by `calculate_checksum`
equals the additive sum of the five leading header bytes (magic, frame_type,
seq, len_lo, len_hi) mod 256; it reads no payload bytes, so any two frames
with the same frame_type, sequence and payload length carry the same checksum
byte regardless of payload content. -/
theorem checksum_header_only (t s : Nat) (p : List Nat) :
    (Envelope.buildV t s p).getD 5 0 = ((Envelope.buildV t s p).take 5).sum % 256 ∧
      (∀ q : List Nat, q.length = p.length →
        (Envelope.buildV t s p).getD 5 0 = (Envelope.buildV t s q).getD 5 0) := by
  constructor
  · rw [buildV_eq]
    show Envelope.calculate_checksum t s (p.length % 65536) =
      (FRAME_MAGIC + (t + (s + (p.length % 256 + ((p.length / 256) % 256 + 0))))) % 256
    simp [Envelope.calculate_checksum]
    omega
  · intro q hq
    rw [buildV_eq, buildV_eq, hq]
    rfl

/-- C2 witness for the inner hypothesis of `checksum_header_only`. -/
theorem checksum_header_only_witness :
    ([4, 5, 6] : List Nat).length = ([1, 2, 3] : List Nat).length ∧
      (Envelope.buildV 7 9 [1, 2, 3]).getD 5 0 = (Envelope.buildV 7 9 [4, 5, 6]).getD 5 0 := by
  exact ⟨by decide, (checksum_header_only 7 9 [1, 2, 3]).2 [4, 5, 6] (by decide)⟩

/-- Helper: the length field of a six-byte header followed by anything decodes
to the fourth and fifth bytes in little-endian order. -/
lemma len_field_append (a b c d e f : Nat) (p : List Nat) :
    len_field ([a, b, c, d, e, f] ++ p) = d + 256 * e := rfl

/-- Helper: byte 5 of a six-byte header followed by anything is the sixth
header byte. -/
lemma getD5_append (a b c d e f : Nat) (p : List Nat) :
    ([a, b, c, d, e, f] ++ p).getD 5 0 = f := rfl

/-- C3 counterexample: `build` does not reject a 65536-byte payload — it
returns a full frame (header plus all 65536 payload bytes), and the length
field of that frame decodes to 0, not to the payload size. -/
theorem build_no_reject_oversized_cex :
    (Envelope.buildV 0 0 (List.replicate 65536 0)).length = 6 + 65536 ∧
      len_field (Envelope.buildV 0 0 (List.replicate 65536 0)) = 0 ∧
      (List.replicate 65536 (0 : Nat)).length ≠ 0 := by
  refine ⟨?_, ?_, by rw [List.length_replicate]; decide⟩
  · rw [buildV_eq, List.length_append, List.length_replicate]
    rfl
  · rw [buildV_eq, len_field_append, List.length_replicate]

/-- C3 (amended): `build` never fails and has no `InvalidPayload` path or
maximum-length check: for every payload it returns a frame of size
`6 + payload.size`, whose 16-bit length field equals the payload size mod
65536, and equals it exactly whenever the payload size is below 65536. -/
theorem build_length_field_exact (t s : Nat) (p : List Nat) :
    (Envelope.buildV t s p).length = 6 + p.length ∧
      len_field (Envelope.buildV t s p) = p.length % 65536 ∧
      (p.length < 65536 → len_field (Envelope.buildV t s p) = p.length) := by
  rw [buildV_eq, len_field_append]
  refine ⟨by simp; omega, by omega, fun h => by omega⟩

/-- C3 witness for the hypothesis of the final conjunct of
`build_length_field_exact`. -/
theorem build_length_field_exact_witness :
    ([1, 2] : List Nat).length < 65536 ∧
      len_field (Envelope.buildV 3 4 [1, 2]) = ([1, 2] : List Nat).length :=
  ⟨by decide, (build_length_field_exact 3 4 [1, 2]).2.2 (by decide)⟩

/-- C4 (confirmed): every frame returned by `build` is the six-byte header
magic 0xA5, frame_type, sequence, length low byte, length high byte, checksum
— in that order, the length stored little-endian — followed immediately by
the payload bytes in order. -/
theorem build_frame_layout (t s : Nat) (p : List Nat) :
    (Envelope.buildV t s p).take 6 =
        [FRAME_MAGIC, t, s, p.length % 256, (p.length / 256) % 256,
         Envelope.calculate_checksum t s (p.length % 65536)] ∧
      (Envelope.buildV t s p).drop 6 = p := by
  rw [buildV_eq]
  exact ⟨rfl, rfl⟩

/-- C6 (confirmed): the checksum byte (index 5) of every built frame equals
the active checksum function applied to the header fields only, so two builds
with the same frame_type, sequence and payload length but different payload
contents produce identical six-byte headers. -/
theorem build_header_payload_independent (t s : Nat) (p q : List Nat) :
    (Envelope.buildV t s p).getD 5 0 =
        Envelope.calculate_checksum t s (p.length % 65536) ∧
      (p.length = q.length →
        (Envelope.buildV t s p).take 6 = (Envelope.buildV t s q).take 6) := by
  constructor
  · rw [buildV_eq]
    exact getD5_append _ _ _ _ _ _ _
  · intro h
    rw [buildV_eq, buildV_eq, h]
    rfl

/-- C6 witness for the inner hypothesis of
`build_header_payload_independent`. -/
theorem build_header_payload_independent_witness :
    ([9] : List Nat).length = ([4] : List Nat).length ∧
      (Envelope.buildV 2 3 [9]).take 6 = (Envelope.buildV 2 3 [4]).take 6 :=
  ⟨by decide, (build_header_payload_independent 2 3 [9] [4]).2 (by decide)⟩

/-- C8 (confirmed): calling `build` with a null payload pointer and nonzero
`payload_len` yields a header-only frame (six bytes, empty payload part) whose
length field still records `payload_len`, violating the invariant that the
length field equals the size of the attached payload. -/
theorem build_null_payload_header_only (t s n : Nat) (h0 : 0 < n) (h1 : n < 65536) :
    Envelope.build t s none n =
        [FRAME_MAGIC, t, s, n % 256, (n / 256) % 256,
         Envelope.calculate_checksum t s n] ∧
      (Envelope.build t s none n).length = 6 ∧
      len_field (Envelope.build t s none n) = n ∧
      ((Envelope.build t s none n).drop 6).length = 0 ∧
      len_field (Envelope.build t s none n) ≠ ((Envelope.build t s none n).drop 6).length := by
  have hmod : n % 65536 = n := Nat.mod_eq_of_lt h1
  have hb : Envelope.build t s none n =
      [FRAME_MAGIC, t, s, n % 256, (n / 256) % 256,
       Envelope.calculate_checksum t s n] := by
    simp [Envelope.build, hmod]
  rw [hb]
  refine ⟨rfl, rfl, ?_, rfl, ?_⟩
  · show n % 256 + 256 * (n / 256 % 256) = n
    omega
  · show n % 256 + 256 * (n / 256 % 256) ≠ 0
    omega

/-- C8 witness for `build_null_payload_header_only` at frame_type 0x22,
sequence 3, payload_len 5. -/
theorem build_null_payload_header_only_witness :
    0 < 5 ∧ (5 : Nat) < 65536 ∧
      (Envelope.build 0x22 3 none 5 =
          [FRAME_MAGIC, 0x22, 3, 5 % 256, (5 / 256) % 256,
           Envelope.calculate_checksum 0x22 3 5] ∧
        (Envelope.build 0x22 3 none 5).length = 6 ∧
        len_field (Envelope.build 0x22 3 none 5) = 5 ∧
        ((Envelope.build 0x22 3 none 5).drop 6).length = 0 ∧
        len_field (Envelope.build 0x22 3 none 5) ≠
          ((Envelope.build 0x22 3 none 5).drop 6).length) :=
  ⟨by decide, by decide, build_null_payload_header_only 0x22 3 5 (by decide) (by decide)⟩

/-- C9 (confirmed): for every payload of length at least 2^16, the
little-endian length field of the built frame equals the payload length mod
65536 — silent truncation, never rejection — and the checksum byte is
computed over that truncated 16-bit value. -/
theorem build_length_truncated_mod_65536 (t s : Nat) (p : List Nat)
    (h : 65536 ≤ p.length) :
    len_field (Envelope.buildV t s p) = p.length % 65536 ∧
      p.length % 65536 ≠ p.length ∧
      (Envelope.buildV t s p).getD 5 0 =
        Envelope.calculate_checksum t s (p.length % 65536) := by
  refine ⟨?_, by omega, ?_⟩
  · rw [buildV_eq, len_field_append]
    omega
  · rw [buildV_eq]
    exact getD5_append _ _ _ _ _ _ _

/-- C9 witness for `build_length_truncated_mod_65536` on a 65536-byte
payload. -/
theorem build_length_truncated_mod_65536_witness :
    65536 ≤ (List.replicate 65536 (0 : Nat)).length ∧
      (len_field (Envelope.buildV 1 2 (List.replicate 65536 0)) =
          (List.replicate 65536 (0 : Nat)).length % 65536 ∧
        (List.replicate 65536 (0 : Nat)).length % 65536 ≠
          (List.replicate 65536 (0 : Nat)).length ∧
        (Envelope.buildV 1 2 (List.replicate 65536 0)).getD 5 0 =
          Envelope.calculate_checksum 1 2
            ((List.replicate 65536 (0 : Nat)).length % 65536)) :=
  ⟨by rw [List.length_replicate],
    build_length_truncated_mod_65536 1 2 (List.replicate 65536 0)
      (by rw [List.length_replicate])⟩

/-- Helper: every slice emitted by the chunk loop has length at most the
chunk size (each iteration takes at most `c` bytes). -/
lemma mem_chunkGo_length_le (fuel c : Nat) :
    ∀ (xs s : List Nat), s ∈ Envelope.chunkGo fuel c xs → s.length ≤ c := by
  induction fuel with
  | zero =>
    intro xs s hs
    cases xs <;> simp [Envelope.chunkGo] at hs
  | succ n ih =>
    intro xs s hs
    cases xs with
    | nil => simp [Envelope.chunkGo] at hs
    | cons x rest =>
      simp only [Envelope.chunkGo, List.mem_cons] at hs
      rcases hs with h | h
      · subst h
        rw [List.length_take]
        exact min_le_left _ _
      · exact ih _ _ h

/-- Helper: for a positive chunk size, every slice emitted by the chunk loop
is non-empty (each iteration starts at a position strictly inside the
packet). -/
lemma mem_chunkGo_ne_nil (fuel c : Nat) (hc : 0 < c) :
    ∀ (xs s : List Nat), s ∈ Envelope.chunkGo fuel c xs → s ≠ [] := by
  induction fuel with
  | zero =>
    intro xs s hs
    cases xs <;> simp [Envelope.chunkGo] at hs
  | succ n ih =>
    intro xs s hs
    cases xs with
    | nil => simp [Envelope.chunkGo] at hs
    | cons x rest =>
      simp only [Envelope.chunkGo, List.mem_cons] at hs
      rcases hs with h | h
      · subst h
        cases c with
        | zero => exact absurd hc (by decide)
        | succ m => simp
      · exact ih _ _ h

/-- Helper: with enough fuel and a positive chunk size, concatenating the
emitted slices in order recovers the packet. -/
lemma chunkGo_flatten (c : Nat) (hc : 0 < c) :
    ∀ (fuel : Nat) (xs : List Nat), xs.length ≤ fuel →
      (Envelope.chunkGo fuel c xs).flatten = xs := by
  intro fuel
  induction fuel with
  | zero =>
    intro xs h
    have hx : xs = [] := List.eq_nil_of_length_eq_zero (Nat.le_zero.mp h)
    subst hx
    simp [Envelope.chunkGo]
  | succ n ih =>
    intro xs h
    cases xs with
    | nil => simp [Envelope.chunkGo]
    | cons x rest =>
      have hlen : ((x :: rest).drop c).length ≤ n := by
        rw [List.length_drop]
        simp only [List.length_cons] at h ⊢
        omega
      simp only [Envelope.chunkGo, List.flatten_cons]
      rw [ih _ hlen, List.take_append_drop]

/-- Helper: with enough fuel, the chunk loop at chunk size 20 emits exactly
the ceiling of length over 20 slices. -/
lemma chunkGo_count (fuel : Nat) :
    ∀ xs : List Nat, xs.length ≤ fuel →
      (Envelope.chunkGo fuel 20 xs).length = (xs.length + 19) / 20 := by
  induction fuel with
  | zero =>
    intro xs h
    have hx : xs = [] := List.eq_nil_of_length_eq_zero (Nat.le_zero.mp h)
    subst hx
    simp [Envelope.chunkGo]
  | succ n ih =>
    intro xs h
    cases xs with
    | nil => simp [Envelope.chunkGo]
    | cons x rest =>
      have hlen : ((x :: rest).drop 20).length ≤ n := by
        rw [List.length_drop]
        simp only [List.length_cons] at h ⊢
        omega
      simp only [Envelope.chunkGo, List.length_cons]
      rw [ih _ hlen, List.length_drop]
      simp only [List.length_cons]
      omega

/-- C5 (confirmed): for every packet longer than the chunk size, `chunk`
produces exactly the ceiling of length over chunk size many slices, each of
size at most the chunk size, whose in-order concatenation is the original
byte sequence with no extra bytes added. -/
theorem chunk_partition (p : List Nat) (h : BLE_CHUNK_SIZE < p.length) :
    (Envelope.chunk p).length =
        (p.length + (BLE_CHUNK_SIZE - 1)) / BLE_CHUNK_SIZE ∧
      (∀ s ∈ Envelope.chunk p, s.length ≤ BLE_CHUNK_SIZE) ∧
      (Envelope.chunk p).flatten = p := by
  refine ⟨?_, ?_, ?_⟩
  · exact chunkGo_count p.length p (le_refl _)
  · intro s hs
    exact mem_chunkGo_length_le p.length BLE_CHUNK_SIZE p s hs
  · exact chunkGo_flatten BLE_CHUNK_SIZE (by decide) p.length p (le_refl _)

/-- C5 witness for `chunk_partition` on a 25-byte packet. -/
theorem chunk_partition_witness :
    BLE_CHUNK_SIZE < (List.range 25).length ∧
      ((Envelope.chunk (List.range 25)).length =
          ((List.range 25).length + (BLE_CHUNK_SIZE - 1)) / BLE_CHUNK_SIZE ∧
        (∀ s ∈ Envelope.chunk (List.range 25), s.length ≤ BLE_CHUNK_SIZE) ∧
        (Envelope.chunk (List.range 25)).flatten = List.range 25) :=
  ⟨by decide, chunk_partition (List.range 25) (by decide)⟩

/-- C7 (confirmed): the chunk size is the named configuration constant
`BLE_CHUNK_SIZE`, with protocol default value 20; `chunk` is the size-generic
splitting loop instantiated at that constant, and for every positive
configured chunk size the loop emits slices of size at most that value. -/
theorem chunk_size_configurable :
    BLE_CHUNK_SIZE = 20 ∧
      (∀ p : List Nat, Envelope.chunk p = Envelope.chunkWith BLE_CHUNK_SIZE p) ∧
      (∀ (c : Nat) (p : List Nat), 0 < c →
        ∀ s ∈ Envelope.chunkWith c p, s.length ≤ c) := by
  refine ⟨rfl, fun p => rfl, fun c p hc s hs => ?_⟩
  exact mem_chunkGo_length_le p.length c p s hs

/-- C7 witness for `chunk_size_configurable` at configured chunk size 7. -/
theorem chunk_size_configurable_witness :
    0 < 7 ∧ ∀ s ∈ Envelope.chunkWith 7 (List.range 10), s.length ≤ 7 :=
  ⟨by decide, chunk_size_configurable.2.2 7 (List.range 10) (by decide)⟩

/-- C10 (confirmed): `chunk` on the empty byte sequence returns zero slices,
not one empty slice, and every slice it returns for any input is
non-empty. -/
theorem chunk_empty_and_nonempty_slices :
    Envelope.chunk [] = [] ∧
      (∀ p : List Nat, p ≠ [] → ∀ s ∈ Envelope.chunk p, s ≠ []) := by
  refine ⟨rfl, fun p hp s hs => ?_⟩
  exact mem_chunkGo_ne_nil p.length BLE_CHUNK_SIZE (by decide) p s hs

/-- C10 witness for `chunk_empty_and_nonempty_slices` on a two-byte packet. -/
theorem chunk_empty_and_nonempty_slices_witness :
    ([5, 6] : List Nat) ≠ [] ∧ ∀ s ∈ Envelope.chunk [5, 6], s ≠ [] :=
  ⟨by decide, chunk_empty_and_nonempty_slices.2 [5, 6] (by decide)⟩

end cosori_kettle_ble
